import Mathlib

/-!
Shallow embedding of `src/sw.js` (Saladin Pharma service worker, version 3.0.0).

Modelling conventions:
* A cache partition (`Cache` object of the Cache API) is a list of
  `(url, response)` entries in insertion order, oldest first.  `put` is the
  Cache API batch operation: delete any entry with the same key, then append
  the new entry at the end; `keys()` returns keys in insertion order.
* The network is an environment `fetchEnv : String → FetchOutcome` mapping a
  request URL to either a fulfilled `Response` (possibly with an error
  status) or a rejection (network failure).
* Async JS code is modelled sequentially: each handler is a function from the
  pre-state to (result, post-state); the fire-and-forget background fetch of
  `staleWhileRevalidate` is modelled as completing within the same step, so
  its effect on the partition is visible to the next request only.
* A JS function that can return `null`/`undefined` to `event.respondWith`
  returns `Option Response`.
-/

namespace SaladinSW

/-- A stored/network response snapshot: status and body.  `ok` is the JS
`Response.ok` predicate (status in the 200–299 range). -/
structure Response where
  status : Nat
  body : String
  deriving DecidableEq, Repr

def Response.ok (r : Response) : Bool := 200 ≤ r.status && r.status ≤ 299

/-- Outcome of a `fetch(request)` call: the promise either fulfills with a
response (any status) or rejects (network failure). -/
inductive FetchOutcome where
  | success (r : Response)
  | failure
  deriving DecidableEq, Repr

/-- A cache partition: entries in insertion order, oldest first, keyed by
request URL. -/
abbrev CachePartition := List (String × Response)

/-- Model of `cache.match(request)`: first entry whose key equals the request URL. -/
def cacheMatch (c : CachePartition) (k : String) : Option Response :=
  (List.find? (fun e => e.1 == k) c).map (fun e => e.2)

/-- Model of `cache.put(request, response)`: Cache API batch semantics — remove any
entry with the same key, then append the new entry at the end. -/
def cachePut (c : CachePartition) (k : String) (r : Response) : CachePartition :=
  List.filter (fun e => e.1 != k) c ++ [(k, r)]

/-- Model of `cache.delete(request)`: remove the entry (or entries) with this key. -/
def cacheDelete (c : CachePartition) (k : String) : CachePartition :=
  List.filter (fun e => e.1 != k) c

/-- Model of `cache.keys()`: the keys in insertion order. -/
def cacheKeys (c : CachePartition) : List String :=
  List.map (fun e => e.1) c

/-- Sequence of `cache.delete(key)` calls, as issued by `limitCacheSize`. -/
def deleteKeys (c : CachePartition) (ks : List String) : CachePartition :=
  List.foldl (fun acc k => cacheDelete acc k) c ks

-- Configuration constants from the top of sw.js.

def CACHE_VERSION : String := "saladin-pharma-v3.0.0"
def CACHE_STATIC : String := CACHE_VERSION ++ "-static"
def CACHE_DYNAMIC : String := CACHE_VERSION ++ "-dynamic"
def CACHE_CDN : String := CACHE_VERSION ++ "-cdn"

def STATIC_ASSETS : List String := ["/", "/index.html", "/manifest.json"]

def CDN_RESOURCES : List String := [
  "https://cdn.tailwindcss.com",
  "https://unpkg.com/dexie@3.2.4/dist/dexie.min.js",
  "https://cdn.jsdelivr.net/npm/chart.js",
  "https://cdnjs.cloudflare.com/ajax/libs/jspdf/2.5.1/jspdf.umd.min.js",
  "https://fonts.googleapis.com/css2?family=Inter:wght@300;400;500;600;700;800;900&display=swap"]

def FIREBASE_HOSTS : List String := [
  "firebaseapp.com",
  "googleapis.com",
  "gstatic.com",
  "firebaseio.com",
  "firestore.googleapis.com"]

def MAX_DYNAMIC_CACHE_SIZE : Nat := 50
def MAX_CDN_CACHE_SIZE : Nat := 30

/-- Model of `limitCacheSize(cacheName, maxSize)` from sw.js: read the keys in
insertion order; if there are more than `maxSize`, delete the first
`keys.length - maxSize` of them (FIFO).  The JS local bindings `keys` and
`deleteCount` are inlined. -/
def limitCacheSize (c : CachePartition) (maxSize : Nat) : CachePartition :=
  if maxSize < (cacheKeys c).length then
    deleteKeys c ((cacheKeys c).take ((cacheKeys c).length - maxSize))
  else
    c

/-- JS `String.prototype.includes`: `jsIncludes s sub` is true when `sub`
occurs as a contiguous substring of `s`. -/
def isPrefixList : List Char → List Char → Bool
  | [], _ => true
  | _ :: _, [] => false
  | a :: as, b :: bs => a == b && isPrefixList as bs

def isSubListOf (sub : List Char) : List Char → Bool
  | [] => sub.isEmpty
  | c :: cs => isPrefixList sub (c :: cs) || isSubListOf sub cs

def jsIncludes (s sub : String) : Bool := isSubListOf sub.toList s.toList

/-- JS `String.prototype.startsWith`. -/
def jsStartsWith (s pre : String) : Bool := isPrefixList pre.toList s.toList

/-- An inbound request as seen by the fetch listener: the method, the full
URL string, and the parsed-URL fields the handler consults (`url.protocol`
such as "https:", `url.hostname`, `url.pathname`), plus the value of the
`accept` header when present. -/
structure Request where
  method : String
  url : String
  protocol : String
  hostname : String
  pathname : String
  accept : Option String
  deriving DecidableEq, Repr

/-- Model of `request.headers.get('accept')?.includes('text/html')`: `undefined`
(absent header) is falsy. -/
def acceptsHtml (req : Request) : Bool :=
  match req.accept with
  | some a => jsIncludes a "text/html"
  | none => false

/-- The three partitions the worker uses.  `caches.match` consults cache
objects in creation order; the static partition is created first (at
install), then the dynamic and CDN partitions on first use. -/
structure CacheStore where
  staticCache : CachePartition
  dynamicCache : CachePartition
  cdnCache : CachePartition
  deriving DecidableEq

/-- Model of `caches.match(request)`: search every partition in creation order. -/
def cachesMatch (s : CacheStore) (k : String) : Option Response :=
  match cacheMatch s.staticCache k with
  | some r => some r
  | none =>
    match cacheMatch s.dynamicCache k with
    | some r => some r
    | none => cacheMatch s.cdnCache k

/-- The synthetic 503 built in `cacheFirst`'s catch branch. -/
def offlineResourceResponse : Response := ⟨503, "Offline - Resource not available"⟩

/-- The synthetic 503 built at the end of `networkFirst`'s catch branch. -/
def offlineNoCacheResponse : Response := ⟨503, "Offline - No cached version available"⟩

/-- Model of `cacheFirst(request, cacheName)` from sw.js, instrumented with the number
of network fetches performed (third component).  A fulfilled fetch is
returned as-is; only an ok response is stored; a rejected fetch is caught
and turned into the synthetic 503. -/
def cacheFirst (req : Request) (cache : CachePartition) (fetchEnv : String → FetchOutcome) :
    Response × CachePartition × Nat :=
  match cacheMatch cache req.url with
  | some cachedResponse => (cachedResponse, cache, 0)
  | none =>
    match fetchEnv req.url with
    | .success networkResponse =>
      if networkResponse.ok then
        (networkResponse, cachePut cache req.url networkResponse, 1)
      else
        (networkResponse, cache, 1)
    | .failure => (offlineResourceResponse, cache, 1)

/-- Model of `networkFirst(request, cacheName)` from sw.js, called with
`cacheName = CACHE_DYNAMIC`.  On an ok response: store a copy in the dynamic
partition, run `limitCacheSize`, return the live response.  On a rejected
fetch: fall back to `caches.match` over every partition, then (for HTML
requests) to the cached root document in the static partition, then to the
synthetic 503. -/
def networkFirst (req : Request) (store : CacheStore) (fetchEnv : String → FetchOutcome) :
    Response × CacheStore :=
  match fetchEnv req.url with
  | .success networkResponse =>
    if networkResponse.ok then
      (networkResponse,
        CacheStore.mk store.staticCache
          (limitCacheSize (cachePut store.dynamicCache req.url networkResponse)
            MAX_DYNAMIC_CACHE_SIZE)
          store.cdnCache)
    else
      (networkResponse, store)
  | .failure =>
    match cachesMatch store req.url with
    | some cachedResponse => (cachedResponse, store)
    | none =>
      if acceptsHtml req then
        match cacheMatch store.staticCache "/" with
        | some fallback => (fallback, store)
        | none => (offlineNoCacheResponse, store)
      else
        (offlineNoCacheResponse, store)

/-- Model of `staleWhileRevalidate(request, cacheName)` from sw.js, called with
`cacheName = CACHE_CDN`.  The background fetch stores an ok response and
runs `limitCacheSize`; a rejected fetch is caught and resolves to `null`
(modelled `none`).  The caller gets the cached response when present,
otherwise the background fetch's outcome.  The fire-and-forget fetch is
modelled as completing within the same step, so its store update is visible
only to later requests. -/
def staleWhileRevalidate (req : Request) (cache : CachePartition)
    (fetchEnv : String → FetchOutcome) : Option Response × CachePartition :=
  let cachedResponse := cacheMatch cache req.url
  let fetchStep : Option Response × CachePartition :=
    match fetchEnv req.url with
    | .success networkResponse =>
      if networkResponse.ok then
        (some networkResponse,
          limitCacheSize (cachePut cache req.url networkResponse) MAX_CDN_CACHE_SIZE)
      else
        (some networkResponse, cache)
    | .failure => (none, cache)
  match cachedResponse with
  | some r => (some r, fetchStep.2)
  | none => fetchStep

/-- Strategy 1 test of `handleFetchRequest`:
`STATIC_ASSETS.some(asset => url.pathname === asset)`. -/
def isStaticAssetRequest (req : Request) : Bool :=
  STATIC_ASSETS.any (fun asset => req.pathname == asset)

/-- Strategy 2 test of `handleFetchRequest`: a CDN_RESOURCES entry occurs in
the request URL, or the hostname contains "cdn", "unpkg" or "jsdelivr". -/
def isCdnRequest (req : Request) : Bool :=
  CDN_RESOURCES.any (fun cdn => jsIncludes req.url cdn) ||
  jsIncludes req.hostname "cdn" ||
  jsIncludes req.hostname "unpkg" ||
  jsIncludes req.hostname "jsdelivr"

/-- Model of `handleFetchRequest(request, url)` from sw.js.  Strategies 3 and 4 are
the same call (`networkFirst` on the dynamic partition), so the `accept`
test does not change the dispatch.  The result is `Option Response` because
`staleWhileRevalidate` can resolve to `null`. -/
def handleFetchRequest (req : Request) (store : CacheStore)
    (fetchEnv : String → FetchOutcome) : Option Response × CacheStore :=
  if isStaticAssetRequest req then
    (some (cacheFirst req store.staticCache fetchEnv).1,
      CacheStore.mk (cacheFirst req store.staticCache fetchEnv).2.1
        store.dynamicCache store.cdnCache)
  else if isCdnRequest req then
    ((staleWhileRevalidate req store.cdnCache fetchEnv).1,
      CacheStore.mk store.staticCache store.dynamicCache
        (staleWhileRevalidate req store.cdnCache fetchEnv).2)
  else
    (some (networkFirst req store fetchEnv).1, (networkFirst req store fetchEnv).2)

/-- Result of the fetch listener: either the event is left alone (the
browser performs the request; no cache is consulted) or `respondWith` is
called with the strategy result. -/
inductive FetchDecision where
  | passthrough
  | responded (r : Option Response)
  deriving DecidableEq, Repr

/-- The `fetch` listener from sw.js: skip non-GET requests, skip requests
whose hostname contains a FIREBASE_HOSTS entry, skip non-http(s) schemes;
otherwise respond with `handleFetchRequest`. -/
def onFetch (req : Request) (store : CacheStore) (fetchEnv : String → FetchOutcome) :
    FetchDecision × CacheStore :=
  if req.method != "GET" then (.passthrough, store)
  else if FIREBASE_HOSTS.any (fun host => jsIncludes req.hostname host) then
    (.passthrough, store)
  else if !(jsStartsWith req.protocol "http") then (.passthrough, store)
  else
    (.responded (handleFetchRequest req store fetchEnv).1,
      (handleFetchRequest req store fetchEnv).2)

/-- Fetch every URL of an `addAll` call; `none` as soon as one fetch rejects
or yields a non-ok response (`Cache.add`/`addAll` reject on error statuses). -/
def fetchAllOk (fetchEnv : String → FetchOutcome) : List String → Option (List (String × Response))
  | [] => some []
  | u :: us =>
    match fetchEnv u with
    | .success r =>
      if r.ok then (fetchAllOk fetchEnv us).map (fun rest => (u, r) :: rest)
      else none
    | .failure => none

/-- Model of `cache.addAll(urls)`: atomic per the Cache API — all URLs are fetched
and stored as one batch; if any fetch rejects or any response is not ok, the
whole call rejects and nothing is stored. -/
def cacheAddAll (fetchEnv : String → FetchOutcome) (c : CachePartition) (urls : List String) :
    Option CachePartition :=
  (fetchAllOk fetchEnv urls).map (fun entries =>
    entries.foldl (fun acc e => cachePut acc e.1 e.2) c)

/-- Outcome of the `install` event handler: whether the promise passed to
`event.waitUntil` resolved (when it does, the browser marks the worker
installed — the version becomes ready), whether `skipWaiting()` was reached,
and the resulting static partition. -/
structure InstallOutcome where
  installCompleted : Bool
  skipWaitingCalled : Bool
  staticCache : CachePartition
  deriving DecidableEq

/-- The `install` listener from sw.js: open the static partition,
`addAll(STATIC_ASSETS)`, then `skipWaiting()`; the trailing `.catch` logs
any error and resolves, so the `waitUntil` promise never rejects. -/
def installHandler (fetchEnv : String → FetchOutcome) (staticCache : CachePartition) :
    InstallOutcome :=
  match cacheAddAll fetchEnv staticCache STATIC_ASSETS with
  | some c => ⟨true, true, c⟩
  | none => ⟨true, false, staticCache⟩

/-- The `activate` listener from sw.js applied to the list of existing cache
names: delete every name that starts with "saladin-pharma-" and is none of
the three current names; the remaining names survive. -/
def activateHandler (cacheNames : List String) : List String :=
  cacheNames.filter (fun cacheName =>
    !(jsStartsWith cacheName "saladin-pharma-" &&
      cacheName != CACHE_STATIC &&
      cacheName != CACHE_DYNAMIC &&
      cacheName != CACHE_CDN))

/-- The whole CacheStorage of the origin: named caches in creation order. -/
abbrev CacheStorage := List (String × CachePartition)

/-- Model of `clearAllCaches()` from sw.js: read `caches.keys()` and issue
`caches.delete(name)` for every name reported. -/
def clearAllCaches (storage : CacheStorage) : CacheStorage :=
  List.foldl (fun acc cacheName => List.filter (fun e => e.1 != cacheName) acc)
    storage (List.map (fun e => e.1) storage)

/-- Model of `cacheUrls(urls)` from sw.js: `addAll` the URLs into the dynamic
partition; a failure is caught and logged (no entries stored, by `addAll`
atomicity).  There is no `limitCacheSize` call on this path. -/
def cacheUrls (fetchEnv : String → FetchOutcome) (dynamicCache : CachePartition)
    (urls : List String) : CachePartition :=
  match cacheAddAll fetchEnv dynamicCache urls with
  | some c => c
  | none => dynamicCache

/-- Client control messages recognised by the `message` listener. -/
inductive ClientMessage where
  | SKIP_WAITING
  | CLEAR_CACHE
  | CACHE_URLS (urls : List String)
  deriving DecidableEq, Repr

/-- Open-or-create a named cache and update it in place. -/
def storageUpdate (storage : CacheStorage) (name : String)
    (f : CachePartition → CachePartition) : CacheStorage :=
  match List.find? (fun e => e.1 == name) storage with
  | some _ => List.map (fun e => if e.1 == name then (e.1, f e.2) else e) storage
  | none => storage ++ [(name, f [])]

/-- The `message` listener from sw.js, restricted to its effect on the cache
storage: `SKIP_WAITING` touches no cache, `CLEAR_CACHE` runs
`clearAllCaches`, `CACHE_URLS` runs `cacheUrls` on the dynamic partition. -/
def onMessage (msg : ClientMessage) (fetchEnv : String → FetchOutcome)
    (storage : CacheStorage) : CacheStorage :=
  match msg with
  | .SKIP_WAITING => storage
  | .CLEAR_CACHE => clearAllCaches storage
  | .CACHE_URLS urls => storageUpdate storage CACHE_DYNAMIC (fun c => cacheUrls fetchEnv c urls)

-- ## Helper lemmas about the cache model

theorem deleteKeys_eq_filter (ks : List String) (c : CachePartition) :
    deleteKeys c ks = List.filter (fun e => !(ks.contains e.1)) c := by
  induction ks generalizing c with
  | nil =>
      simp [deleteKeys, List.filter_eq_self]
  | cons k ks ih =>
      show deleteKeys (cacheDelete c k) ks = _
      rw [ih]
      unfold cacheDelete
      rw [List.filter_filter]
      congr 1
      funext e
      by_cases h : e.1 = k
      · simp [h]
      · simp [h, bne_iff_ne, Ne, h]

theorem cacheKeys_length (c : CachePartition) : (cacheKeys c).length = c.length :=
  List.length_map _ _

theorem cacheKeys_take (c : CachePartition) (n : Nat) :
    (cacheKeys c).take n = cacheKeys (c.take n) := by
  unfold cacheKeys
  rw [List.map_take]

/-- Every entry of `c.take d` has its key in the first `d` keys, hence is
removed by `limitCacheSize`'s deletion pass. -/
theorem filter_take_eq_nil (c : CachePartition) (d : Nat) :
    List.filter (fun e => !(((cacheKeys c).take d).contains e.1)) (c.take d) = [] := by
  rw [List.filter_eq_nil_iff]
  intro e he
  have hm : e.1 ∈ (cacheKeys c).take d := by
    rw [cacheKeys_take]
    exact List.mem_map_of_mem (fun x => x.1) he
  simpa using hm

/-- When the keys are pairwise distinct, no entry of `c.drop d` has its key
among the first `d` keys, so the deletion pass keeps all of `c.drop d`. -/
theorem filter_drop_eq_self (c : CachePartition) (d : Nat)
    (hnd : (cacheKeys c).Nodup) :
    List.filter (fun e => !(((cacheKeys c).take d).contains e.1)) (c.drop d) = c.drop d := by
  rw [List.filter_eq_self]
  intro e he
  have hmem : e.1 ∈ (cacheKeys c).drop d := by
    rw [show (cacheKeys c).drop d = cacheKeys (c.drop d) from by
      unfold cacheKeys; rw [List.map_drop]]
    exact List.mem_map_of_mem (fun x => x.1) he
  have hdisj : List.Disjoint ((cacheKeys c).take d) ((cacheKeys c).drop d) :=
    List.disjoint_take_drop hnd (le_refl d)
  have hnotmem : e.1 ∉ (cacheKeys c).take d := fun hc => hdisj hc hmem
  simp [List.elem_iff, hnotmem]

/-- Core characterisation: with pairwise-distinct keys, the deletion pass of
`limitCacheSize` removes exactly the oldest `d` entries. -/
theorem deleteKeys_take_eq_drop (c : CachePartition) (d : Nat)
    (hnd : (cacheKeys c).Nodup) :
    deleteKeys c ((cacheKeys c).take d) = c.drop d := by
  rw [deleteKeys_eq_filter]
  nth_rewrite 2 [show c = c.take d ++ c.drop d from (List.take_append_drop d c).symm]
  rw [List.filter_append, filter_take_eq_nil, filter_drop_eq_self c d hnd]
  rfl

/-- Generic form of `deleteKeys_eq_filter` for any association list, used
for `clearAllCaches` over the whole CacheStorage. -/
theorem foldl_filter_ne_eq_filter {α : Type} (ks : List String) (c : List (String × α)) :
    List.foldl (fun acc k => List.filter (fun e => e.1 != k) acc) c ks =
    List.filter (fun e => !(ks.contains e.1)) c := by
  induction ks generalizing c with
  | nil =>
      simp [List.filter_eq_self]
  | cons k ks ih =>
      show List.foldl _ (List.filter (fun e => e.1 != k) c) ks = _
      rw [ih, List.filter_filter]
      congr 1
      funext e
      by_cases h : e.1 = k
      · simp [h]
      · simp [h, bne_iff_ne, Ne, h]

/-- The deletion pass never keeps more than `c.length - d` entries, with or
without distinct keys. -/
theorem deleteKeys_take_length_le (c : CachePartition) (d : Nat) :
    (deleteKeys c ((cacheKeys c).take d)).length ≤ c.length - d := by
  rw [deleteKeys_eq_filter]
  nth_rewrite 2 [show c = c.take d ++ c.drop d from (List.take_append_drop d c).symm]
  rw [List.filter_append, filter_take_eq_nil, List.nil_append]
  refine le_trans (List.length_filter_le _ _) ?_
  rw [List.length_drop]

/-- The function `limitCacheSize` always leaves at most `m` entries. -/
theorem limitCacheSize_length_le (c : CachePartition) (m : Nat) :
    (limitCacheSize c m).length ≤ m := by
  unfold limitCacheSize
  by_cases h : m < (cacheKeys c).length
  · rw [if_pos h]
    refine le_trans (deleteKeys_take_length_le c ((cacheKeys c).length - m)) ?_
    rw [cacheKeys_length]
    omega
  · rw [if_neg h]
    have hle := Nat.not_lt.mp h
    rw [cacheKeys_length] at hle
    exact hle

theorem cacheKeys_append (a b : CachePartition) :
    cacheKeys (a ++ b) = cacheKeys a ++ cacheKeys b := by
  unfold cacheKeys
  exact List.map_append _ _ _

/-- Looking up `cache.match k` on a partition ending in `(k, r)` whose other entries
all have a different key returns `r`. -/
theorem cacheMatch_append_right (cf : CachePartition) (k : String) (r : Response)
    (h : ∀ e ∈ cf, (e.1 == k) = false) :
    cacheMatch (cf ++ [(k, r)]) k = some r := by
  induction cf with
  | nil => simp [cacheMatch, List.find?]
  | cons e es ih =>
      have he : (e.1 == k) = false := h e (by simp)
      have ih' := ih (fun x hx => h x (by simp [hx]))
      unfold cacheMatch at ih' ⊢
      rw [List.cons_append, List.find?_cons_of_neg _ (by simp [he])]
      exact ih'

/-- Every entry surviving `cachePut`'s delete pass has a key other than the
put key. -/
theorem cachePut_rest_keys_ne (c : CachePartition) (k : String) :
    ∀ e ∈ List.filter (fun e => e.1 != k) c, (e.1 == k) = false := by
  intro e he
  have hp := List.of_mem_filter he
  simpa using hp

/-- Looking up `cache.match k` after filtering an `(… ++ [(k, r)])` partition with a
predicate that keeps the final entry still returns `r`, when no other entry
carries the key. -/
theorem cacheMatch_filter_append (cf : CachePartition) (k : String) (r : Response)
    (ks : List String) (hks : k ∉ ks)
    (h : ∀ e ∈ cf, (e.1 == k) = false) :
    cacheMatch (List.filter (fun e => !(ks.contains e.1)) (cf ++ [(k, r)])) k = some r := by
  rw [List.filter_append]
  have h2 : List.filter (fun e => !(ks.contains e.1)) [(k, r)] = [(k, r)] := by
    simp [List.elem_iff, hks]
  rw [h2]
  refine cacheMatch_append_right _ k r ?_
  intro e he
  exact h e (List.mem_of_mem_filter he)

/-- The entry just written by `cachePut` survives the `limitCacheSize` pass
that follows (any positive limit): it sits at the newest end, eviction is
FIFO from the oldest end, and no other entry carries its key. -/
theorem cacheMatch_limitCacheSize_cachePut (c : CachePartition) (k : String) (r : Response)
    (m : Nat) (hm : 0 < m) :
    cacheMatch (limitCacheSize (cachePut c k r) m) k = some r := by
  have hknot : k ∉ cacheKeys (List.filter (fun e => e.1 != k) c) := by
    intro hk
    rcases List.mem_map.mp hk with ⟨e, he, hek⟩
    have hne := cachePut_rest_keys_ne c k e he
    rw [hek] at hne
    simp at hne
  have hkeys : cacheKeys (cachePut c k r) =
      cacheKeys (List.filter (fun e => e.1 != k) c) ++ [k] := by
    unfold cachePut
    rw [cacheKeys_append]
    rfl
  unfold limitCacheSize
  by_cases h : m < (cacheKeys (cachePut c k r)).length
  · rw [if_pos h, deleteKeys_eq_filter]
    have hlen : (cacheKeys (cachePut c k r)).length =
        (cacheKeys (List.filter (fun e => e.1 != k) c)).length + 1 := by
      rw [hkeys, List.length_append]
      rfl
    obtain ⟨d, hgen⟩ : ∃ d, (cacheKeys (cachePut c k r)).length - m = d := ⟨_, rfl⟩
    have hd : d ≤ (cacheKeys (List.filter (fun e => e.1 != k) c)).length := by omega
    rw [hgen, hkeys, List.take_append_of_le_length hd]
    refine cacheMatch_filter_append _ k r _ ?_ (cachePut_rest_keys_ne c k)
    intro hk
    exact hknot (List.mem_of_mem_take hk)
  · rw [if_neg h]
    exact cacheMatch_append_right _ k r (cachePut_rest_keys_ne c k)

-- ## C3: limitCacheSize behaviour

/-- C3: `limitCacheSize(cacheName, maxSize)` on a partition holding `count`
entries with pairwise-distinct keys: if `count ≤ maxSize` it deletes nothing;
if `count > maxSize` it deletes exactly the `count - maxSize` oldest entries
(FIFO by insertion order), leaving exactly the `maxSize` most recently
inserted entries. -/
theorem limitCacheSize_spec (c : CachePartition) (maxSize : Nat)
    (hnd : (cacheKeys c).Nodup) :
    (c.length ≤ maxSize → limitCacheSize c maxSize = c) ∧
    (maxSize < c.length →
      limitCacheSize c maxSize = c.drop (c.length - maxSize) ∧
      (limitCacheSize c maxSize).length = maxSize) := by
  constructor
  · intro hle
    unfold limitCacheSize
    rw [cacheKeys_length]
    simp [Nat.not_lt.mpr hle]
  · intro hlt
    have heq : limitCacheSize c maxSize = c.drop (c.length - maxSize) := by
      unfold limitCacheSize
      rw [cacheKeys_length, if_pos hlt]
      exact deleteKeys_take_eq_drop c (c.length - maxSize) hnd
    refine ⟨heq, ?_⟩
    rw [heq, List.length_drop]
    omega

/-- Witness for C3 at a concrete partition of 3 entries and limit 2. -/
theorem limitCacheSize_spec_witness :
    (cacheKeys [("a", Response.mk 200 "x"), ("b", Response.mk 200 "y"),
      ("c", Response.mk 200 "z")]).Nodup ∧
    limitCacheSize [("a", Response.mk 200 "x"), ("b", Response.mk 200 "y"),
      ("c", Response.mk 200 "z")] 2 =
      [("b", Response.mk 200 "y"), ("c", Response.mk 200 "z")] := by
  refine ⟨by decide, ?_⟩
  have h := (limitCacheSize_spec [("a", Response.mk 200 "x"), ("b", Response.mk 200 "y"),
    ("c", Response.mk 200 "z")] 2 (by decide)).2 (by decide)
  rw [h.1]
  rfl

-- ## C10: CLEAR_CACHE deletes every cache, namespaced or not

/-- C10: on a CLEAR_CACHE message, `clearAllCaches` issues a delete for
every cache name the storage reports — including names that do not start
with the "saladin-pharma-" prefix — so afterwards no cache of any name
remains on the origin. -/
theorem clearCache_deletes_everything (storage : CacheStorage)
    (fetchEnv : String → FetchOutcome) :
    onMessage .CLEAR_CACHE fetchEnv storage = [] := by
  show clearAllCaches storage = []
  unfold clearAllCaches
  rw [foldl_filter_ne_eq_filter, List.filter_eq_nil_iff]
  intro e he
  have hm : e.1 ∈ List.map (fun x => x.1) storage := List.mem_map_of_mem _ he
  simpa using hm

-- ## C8: activation removes every stale namespaced partition

/-- C8: every cache name surviving activation that starts with the
"saladin-pharma-" namespace prefix is one of the three current-version
partitions, so no stale-version partition coexists with the active one. -/
theorem activate_removes_stale (cacheNames : List String) (n : String)
    (hmem : n ∈ activateHandler cacheNames)
    (hpre : jsStartsWith n "saladin-pharma-" = true) :
    n = CACHE_STATIC ∨ n = CACHE_DYNAMIC ∨ n = CACHE_CDN := by
  unfold activateHandler at hmem
  have h2 := List.of_mem_filter hmem
  simp only [hpre, Bool.true_and, Bool.not_eq_true'] at h2
  rcases Bool.and_eq_false_iff.mp h2 with h3 | hc
  · rcases Bool.and_eq_false_iff.mp h3 with hs | hd
    · exact Or.inl (by simpa using hs)
    · exact Or.inr (Or.inl (by simpa using hd))
  · exact Or.inr (Or.inr (by simpa using hc))

/-- Witness for C8: a version-1 partition name is removed while the current
static partition survives activation. -/
theorem activate_removes_stale_witness :
    CACHE_STATIC ∈ activateHandler
      ["saladin-pharma-v1.0.0-static", CACHE_STATIC, "unrelated-cache"] ∧
    jsStartsWith CACHE_STATIC "saladin-pharma-" = true ∧
    ("saladin-pharma-v1.0.0-static" ∉ activateHandler
      ["saladin-pharma-v1.0.0-static", CACHE_STATIC, "unrelated-cache"]) ∧
    (CACHE_STATIC = CACHE_STATIC ∨ CACHE_STATIC = CACHE_DYNAMIC ∨ CACHE_STATIC = CACHE_CDN) := by
  refine ⟨by decide, by decide, by decide, ?_⟩
  exact activate_removes_stale
    ["saladin-pharma-v1.0.0-static", CACHE_STATIC, "unrelated-cache"]
    CACHE_STATIC (by decide) (by decide)

-- ## C9: excluded hosts always pass through

/-- C9: a GET request whose hostname contains one of the FIREBASE_HOSTS
entries is never intercepted: the listener does not call `respondWith` and
the cache store is untouched, whatever it currently holds — the exclusion
test runs before strategy classification. -/
theorem excludedHost_passthrough (req : Request) (store : CacheStore)
    (fetchEnv : String → FetchOutcome) (host : String)
    (hget : req.method = "GET") (hmem : host ∈ FIREBASE_HOSTS)
    (hinc : jsIncludes req.hostname host = true) :
    onFetch req store fetchEnv = (.passthrough, store) := by
  unfold onFetch
  rw [hget]
  have hfb : FIREBASE_HOSTS.any (fun h => jsIncludes req.hostname h) = true :=
    List.any_eq_true.mpr ⟨host, hmem, hinc⟩
  simp [hfb]

/-- Witness for C9: the fonts.googleapis.com stylesheet from CDN_RESOURCES
passes straight through even though a cached copy sits in the CDN
partition, because its hostname contains the excluded "googleapis.com". -/
theorem excludedHost_passthrough_witness :
    (Request.mk "GET"
      "https://fonts.googleapis.com/css2?family=Inter:wght@300;400;500;600;700;800;900&display=swap"
      "https:" "fonts.googleapis.com" "/css2" none).method = "GET" ∧
    "googleapis.com" ∈ FIREBASE_HOSTS ∧
    jsIncludes "fonts.googleapis.com" "googleapis.com" = true ∧
    onFetch
      (Request.mk "GET"
        "https://fonts.googleapis.com/css2?family=Inter:wght@300;400;500;600;700;800;900&display=swap"
        "https:" "fonts.googleapis.com" "/css2" none)
      (CacheStore.mk [] []
        [("https://fonts.googleapis.com/css2?family=Inter:wght@300;400;500;600;700;800;900&display=swap",
          Response.mk 200 "cached-stylesheet")])
      (fun _ => .failure) =
      (.passthrough, CacheStore.mk [] []
        [("https://fonts.googleapis.com/css2?family=Inter:wght@300;400;500;600;700;800;900&display=swap",
          Response.mk 200 "cached-stylesheet")]) := by
  refine ⟨rfl, by decide, by decide, ?_⟩
  exact excludedHost_passthrough _ _ _ "googleapis.com" rfl (by decide) (by decide)

-- ## C6: cacheFirst — hits never fetch, misses fetch exactly once

/-- C6: for a static-asset request, a matching entry in the partition is
returned with zero network fetches and no cache change; on a miss exactly
one fetch happens, the live response is returned, and a copy is stored in
the partition only when the response is ok. -/
theorem cacheFirst_spec (req : Request) (cache : CachePartition)
    (fetchEnv : String → FetchOutcome) :
    (∀ r, cacheMatch cache req.url = some r →
      cacheFirst req cache fetchEnv = (r, cache, 0)) ∧
    (cacheMatch cache req.url = none →
      (cacheFirst req cache fetchEnv).2.2 = 1 ∧
      (∀ nr, fetchEnv req.url = .success nr →
        cacheFirst req cache fetchEnv =
          (nr, if nr.ok then cachePut cache req.url nr else cache, 1)) ∧
      (fetchEnv req.url = .failure →
        cacheFirst req cache fetchEnv = (offlineResourceResponse, cache, 1))) := by
  constructor
  · intro r hr
    unfold cacheFirst
    rw [hr]
  · intro hnone
    unfold cacheFirst
    rw [hnone]
    refine ⟨?_, ?_, ?_⟩
    · cases hf : fetchEnv req.url with
      | success nr => by_cases ho : nr.ok <;> simp [ho]
      | failure => rfl
    · intro nr hnr
      rw [hnr]
      by_cases ho : nr.ok <;> simp [ho]
    · intro hfail
      rw [hfail]

/-- Witness for C6 at concrete inputs: a hit returns the stored entry with
zero fetches even though the network would fail. -/
theorem cacheFirst_spec_witness :
    cacheMatch [("https://app.example/index.html", Response.mk 200 "shell")]
      "https://app.example/index.html" = some (Response.mk 200 "shell") ∧
    cacheFirst (Request.mk "GET" "https://app.example/index.html" "https:"
        "app.example" "/index.html" none)
      [("https://app.example/index.html", Response.mk 200 "shell")]
      (fun _ => .failure) =
      (Response.mk 200 "shell",
        [("https://app.example/index.html", Response.mk 200 "shell")], 0) := by
  refine ⟨by decide, ?_⟩
  exact (cacheFirst_spec (Request.mk "GET" "https://app.example/index.html" "https:"
      "app.example" "/index.html" none)
    [("https://app.example/index.html", Response.mk 200 "shell")]
    (fun _ => .failure)).1 (Response.mk 200 "shell") (by decide)

-- ## C5: staleWhileRevalidate — stored entry served, refresh visible later

/-- C5: for a remote-asset request, a stored entry is returned exactly as
stored, whatever the background fetch yields; an ok background response is
written to the partition (surviving its own eviction pass), so it becomes
visible only to the next lookup; with no stored entry the caller gets the
fetch outcome — the response itself on fulfilment (stored when ok), `none`
on rejection with the partition untouched. -/
theorem staleWhileRevalidate_spec (req : Request) (cache : CachePartition)
    (fetchEnv : String → FetchOutcome) :
    (∀ r, cacheMatch cache req.url = some r →
      (staleWhileRevalidate req cache fetchEnv).1 = some r) ∧
    (∀ nr, fetchEnv req.url = .success nr → nr.ok = true →
      cacheMatch (staleWhileRevalidate req cache fetchEnv).2 req.url = some nr) ∧
    (cacheMatch cache req.url = none →
      (∀ nr, fetchEnv req.url = .success nr →
        (staleWhileRevalidate req cache fetchEnv).1 = some nr) ∧
      (fetchEnv req.url = .failure →
        (staleWhileRevalidate req cache fetchEnv).1 = none ∧
        (staleWhileRevalidate req cache fetchEnv).2 = cache)) := by
  refine ⟨?_, ?_, ?_⟩
  · intro r hr
    unfold staleWhileRevalidate
    rw [hr]
  · intro nr hnr hok
    unfold staleWhileRevalidate
    rw [hnr]
    cases hc : cacheMatch cache req.url <;>
      simp [hok, cacheMatch_limitCacheSize_cachePut cache req.url nr
        MAX_CDN_CACHE_SIZE (by decide)]
  · intro hnone
    unfold staleWhileRevalidate
    rw [hnone]
    constructor
    · intro nr hnr
      rw [hnr]
      by_cases ho : nr.ok <;> simp [ho]
    · intro hfail
      rw [hfail]
      exact ⟨rfl, rfl⟩

/-- Witness for C5 at concrete inputs: the stale copy is returned while the
ok refresh lands in the partition for the next request. -/
theorem staleWhileRevalidate_spec_witness :
    cacheMatch [("https://cdn.app/lib.js", Response.mk 200 "stale")]
      "https://cdn.app/lib.js" = some (Response.mk 200 "stale") ∧
    (staleWhileRevalidate (Request.mk "GET" "https://cdn.app/lib.js" "https:"
        "cdn.app" "/lib.js" none)
      [("https://cdn.app/lib.js", Response.mk 200 "stale")]
      (fun _ => .success (Response.mk 200 "fresh"))).1 = some (Response.mk 200 "stale") ∧
    cacheMatch (staleWhileRevalidate (Request.mk "GET" "https://cdn.app/lib.js" "https:"
        "cdn.app" "/lib.js" none)
      [("https://cdn.app/lib.js", Response.mk 200 "stale")]
      (fun _ => .success (Response.mk 200 "fresh"))).2 "https://cdn.app/lib.js" =
      some (Response.mk 200 "fresh") := by
  refine ⟨by decide, ?_, ?_⟩
  · exact (staleWhileRevalidate_spec (Request.mk "GET" "https://cdn.app/lib.js" "https:"
        "cdn.app" "/lib.js" none)
      [("https://cdn.app/lib.js", Response.mk 200 "stale")]
      (fun _ => .success (Response.mk 200 "fresh"))).1 (Response.mk 200 "stale") (by decide)
  · exact ((staleWhileRevalidate_spec (Request.mk "GET" "https://cdn.app/lib.js" "https:"
        "cdn.app" "/lib.js" none)
      [("https://cdn.app/lib.js", Response.mk 200 "stale")]
      (fun _ => .success (Response.mk 200 "fresh"))).2.1 (Response.mk 200 "fresh")
      (by decide) (by decide))

-- ## C7: networkFirst — store before return, fallbacks on failure

/-- C7: for a dynamic request, an ok fetch stores a copy in the dynamic
partition in the same step that returns the live response, so a later
networkFirst call for the same identity whose fetch rejects returns that
stored response verbatim (the static partition not shadowing the key); a
rejected fetch with no stored entry anywhere returns the cached root
document for HTML requests when present, and otherwise the synthetic 503. -/
theorem networkFirst_spec (req : Request) (store : CacheStore)
    (fetchEnv fetchEnv2 : String → FetchOutcome) :
    (∀ r, fetchEnv req.url = .success r → r.ok = true →
      (networkFirst req store fetchEnv).1 = r ∧
      cacheMatch (networkFirst req store fetchEnv).2.dynamicCache req.url = some r ∧
      (fetchEnv2 req.url = .failure →
        cacheMatch store.staticCache req.url = none →
        (networkFirst req (networkFirst req store fetchEnv).2 fetchEnv2).1 = r)) ∧
    (fetchEnv req.url = .failure → cachesMatch store req.url = none →
      (acceptsHtml req = true →
        (∀ fb, cacheMatch store.staticCache "/" = some fb →
          (networkFirst req store fetchEnv).1 = fb) ∧
        (cacheMatch store.staticCache "/" = none →
          (networkFirst req store fetchEnv).1 = offlineNoCacheResponse)) ∧
      (acceptsHtml req = false →
        (networkFirst req store fetchEnv).1 = offlineNoCacheResponse)) := by
  constructor
  · intro r hr hok
    have hstep : networkFirst req store fetchEnv =
        (r, CacheStore.mk store.staticCache
          (limitCacheSize (cachePut store.dynamicCache req.url r) MAX_DYNAMIC_CACHE_SIZE)
          store.cdnCache) := by
      unfold networkFirst
      rw [hr]
      simp [hok]
    have hdyn : cacheMatch (networkFirst req store fetchEnv).2.dynamicCache req.url = some r := by
      rw [hstep]
      exact cacheMatch_limitCacheSize_cachePut store.dynamicCache req.url r
        MAX_DYNAMIC_CACHE_SIZE (by decide)
    refine ⟨by rw [hstep], hdyn, ?_⟩
    intro h2 hstatic
    have hsm : cachesMatch (networkFirst req store fetchEnv).2 req.url = some r := by
      unfold cachesMatch
      rw [show (networkFirst req store fetchEnv).2.staticCache = store.staticCache from by
        rw [hstep]]
      rw [hstatic, hdyn]
    have hfailcase : ∀ s1 : CacheStore, cachesMatch s1 req.url = some r →
        (networkFirst req s1 fetchEnv2).1 = r := by
      intro s1 hs1
      unfold networkFirst
      rw [h2, hs1]
    exact hfailcase _ hsm
  · intro hfail hmiss
    unfold networkFirst
    rw [hfail, hmiss]
    constructor
    · intro hhtml
      rw [hhtml]
      constructor
      · intro fb hfb
        simp [hfb]
      · intro hroot
        simp [hroot]
    · intro hnohtml
      rw [hnohtml]
      simp

/-- Witness for C7 at concrete inputs: a successful fetch is stored, then a
network failure for the same URL returns the stored copy. -/
theorem networkFirst_spec_witness :
    ((fun _ : String => FetchOutcome.success (Response.mk 200 "live"))
        "https://app.example/api/data" = .success (Response.mk 200 "live")) ∧
    (Response.mk 200 "live").ok = true ∧
    ((fun _ : String => FetchOutcome.failure) "https://app.example/api/data" = .failure) ∧
    cacheMatch (CacheStore.mk [] [] []).staticCache "https://app.example/api/data" = none ∧
    (networkFirst (Request.mk "GET" "https://app.example/api/data" "https:"
        "app.example" "/api/data" none)
      (networkFirst (Request.mk "GET" "https://app.example/api/data" "https:"
          "app.example" "/api/data" none)
        (CacheStore.mk [] [] [])
        (fun _ => .success (Response.mk 200 "live"))).2
      (fun _ => .failure)).1 = Response.mk 200 "live" := by
  refine ⟨rfl, by decide, rfl, by decide, ?_⟩
  exact ((networkFirst_spec (Request.mk "GET" "https://app.example/api/data" "https:"
      "app.example" "/api/data" none)
    (CacheStore.mk [] [] [])
    (fun _ => .success (Response.mk 200 "live"))
    (fun _ => .failure)).1 (Response.mk 200 "live") rfl (by decide)).2.2 rfl (by decide)

-- ## C1: install is not failed by a pre-population error

/-- A network where the "/manifest.json" static asset fails and everything
else succeeds. -/
def failManifestEnv : String → FetchOutcome := fun u =>
  if u == "/manifest.json" then .failure else .success (Response.mk 200 "ok")

/-- C1 counterexample: with "/manifest.json" failing, the install event
still completes — the trailing catch swallows the `addAll` rejection, so the
`waitUntil` promise resolves and the version is marked ready, contradicting
"the install phase as a whole fails and the version is not marked ready". -/
theorem install_counterexample :
    failManifestEnv "/manifest.json" = .failure ∧
    (installHandler failManifestEnv []).installCompleted = true := by
  exact ⟨rfl, rfl⟩

/-- A static entry whose pre-population fails: the fetch rejects, or it
fulfils with a non-ok response (`Cache.addAll` rejects either way). -/
def assetFetchFails (fetchEnv : String → FetchOutcome) (u : String) : Prop :=
  fetchEnv u = .failure ∨ ∃ r, fetchEnv u = .success r ∧ r.ok = false

theorem fetchAllOk_none (fetchEnv : String → FetchOutcome) (urls : List String)
    (h : ∃ u ∈ urls, assetFetchFails fetchEnv u) :
    fetchAllOk fetchEnv urls = none := by
  induction urls with
  | nil =>
      rcases h with ⟨u, hu, _⟩
      cases hu
  | cons v vs ih =>
      rcases h with ⟨u, hu, hf⟩
      rcases List.mem_cons.mp hu with h1 | h2
      · subst h1
        unfold fetchAllOk
        rcases hf with hfail | ⟨r, hr, hok⟩
        · rw [hfail]
        · rw [hr]
          simp [hok]
      · unfold fetchAllOk
        cases hv : fetchEnv v with
        | failure => rfl
        | success r =>
            by_cases ho : r.ok
            · rw [ih ⟨u, h2, hf⟩]
              simp [ho]
            · simp [ho]

/-- C1 amended: if pre-populating the static partition fails for any
required entry, the atomic `addAll` stores nothing and `skipWaiting` is not
reached — but the catch swallows the rejection, so the install event still
completes and the version is still marked ready, with the static partition
unchanged (no partially-populated partition, but also no failed install). -/
theorem install_amended (fetchEnv : String → FetchOutcome) (c0 : CachePartition)
    (h : ∃ u ∈ STATIC_ASSETS, assetFetchFails fetchEnv u) :
    installHandler fetchEnv c0 = ⟨true, false, c0⟩ := by
  unfold installHandler cacheAddAll
  rw [fetchAllOk_none fetchEnv STATIC_ASSETS h]
  rfl

/-- Witness for C1's amended statement on the failing-manifest network. -/
theorem install_amended_witness :
    (∃ u ∈ STATIC_ASSETS, assetFetchFails failManifestEnv u) ∧
    installHandler failManifestEnv [("/", Response.mk 200 "old")] =
      ⟨true, false, [("/", Response.mk 200 "old")]⟩ := by
  have hx : ∃ u ∈ STATIC_ASSETS, assetFetchFails failManifestEnv u :=
    ⟨"/manifest.json", by decide, Or.inl rfl⟩
  exact ⟨hx, install_amended failManifestEnv [("/", Response.mk 200 "old")] hx⟩

-- ## C2: strategies can resolve to null

/-- A remote-asset request (hostname contains "cdn") that is not a static
asset and not on the CDN_RESOURCES list. -/
def cdnMissRequest : Request :=
  Request.mk "GET" "https://cdn.example.com/lib.js" "https:" "cdn.example.com" "/lib.js" none

/-- C2 counterexample: a remote-asset request with no stored entry and a
rejecting network makes `staleWhileRevalidate` — and with it the router —
resolve to `null` (`none`), not a synthetic 503: the claim that the caller
always receives some response fails here. -/
theorem handleFetch_null_counterexample :
    (handleFetchRequest cdnMissRequest (CacheStore.mk [] [] [])
      (fun _ => .failure)).1 = none := by
  rfl

/-- C2 amended: the router resolves to `null` exactly when the request is
classified remote-asset, the CDN partition holds no entry for it, and the
fetch rejects; in every other case the caller receives a response (live,
cached, fallback document, or synthetic 503). -/
theorem handleFetch_total_amended (req : Request) (store : CacheStore)
    (fetchEnv : String → FetchOutcome) :
    (handleFetchRequest req store fetchEnv).1 = none ↔
      (isStaticAssetRequest req = false ∧ isCdnRequest req = true ∧
       cacheMatch store.cdnCache req.url = none ∧ fetchEnv req.url = .failure) := by
  unfold handleFetchRequest
  by_cases hs : isStaticAssetRequest req
  · simp [hs]
  · by_cases hc : isCdnRequest req
    · simp only [hs, hc, if_true, if_false, Bool.false_eq_true, false_and, true_and,
        eq_self_iff_true, Bool.not_eq_true]
      unfold staleWhileRevalidate
      cases hm : cacheMatch store.cdnCache req.url with
      | some r => simp [hm]
      | none =>
          cases hf : fetchEnv req.url with
          | success nr =>
              by_cases ho : nr.ok <;> simp [ho, hm, hf]
          | failure => simp [hm, hf]
    · simp [hs, hc]

/-- Witness for C2's amended statement: the null case is reached at the
concrete input of the counterexample scenario. -/
theorem handleFetch_total_amended_witness :
    (isStaticAssetRequest cdnMissRequest = false ∧ isCdnRequest cdnMissRequest = true ∧
     cacheMatch (CacheStore.mk [] [] []).cdnCache cdnMissRequest.url = none ∧
     (fun _ : String => FetchOutcome.failure) cdnMissRequest.url = .failure) ∧
    (handleFetchRequest cdnMissRequest (CacheStore.mk [] [] [])
      (fun _ => .failure)).1 = none := by
  refine ⟨⟨by decide, by decide, rfl, rfl⟩, ?_⟩
  exact (handleFetch_total_amended cdnMissRequest (CacheStore.mk [] [] [])
    (fun _ => .failure)).mpr ⟨by decide, by decide, rfl, rfl⟩

-- ## C4: the pre-warm path skips the eviction check

/-- A dynamic partition already filled to its limit of 50 entries. -/
def fiftyEntries : CachePartition :=
  (List.range 50).map (fun i => (Nat.repr i, Response.mk 200 "cached"))

/-- C4 counterexample: `cacheUrls` (the CACHE_URLS pre-warm path) performs
no eviction check, so adding one URL to a dynamic partition already at its
limit of 50 leaves 51 entries — more than the limit. -/
theorem cacheUrls_no_eviction_counterexample :
    (cacheUrls (fun _ => .success (Response.mk 200 "fresh")) fiftyEntries
      ["https://app.example/extra"]).length = 51 ∧
    ¬(51 ≤ MAX_DYNAMIC_CACHE_SIZE) := by
  exact ⟨rfl, by decide⟩

/-- C4 amended: the strategy-level writes do run the eviction check — after
an ok fetch, networkFirst leaves the dynamic partition with at most 50
entries and staleWhileRevalidate leaves the CDN partition with at most 30 —
but the CACHE_URLS pre-warm path writes into the dynamic partition with no
eviction check and can leave it above its limit. -/
theorem boundedWrites_amended (req : Request) (store : CacheStore)
    (fetchEnv : String → FetchOutcome) (r : Response)
    (hr : fetchEnv req.url = .success r) (hok : r.ok = true) :
    (networkFirst req store fetchEnv).2.dynamicCache.length ≤ MAX_DYNAMIC_CACHE_SIZE ∧
    (staleWhileRevalidate req store.cdnCache fetchEnv).2.length ≤ MAX_CDN_CACHE_SIZE := by
  constructor
  · unfold networkFirst
    rw [hr]
    simp [hok, limitCacheSize_length_le]
  · unfold staleWhileRevalidate
    rw [hr]
    cases hm : cacheMatch store.cdnCache req.url <;>
      simp [hok, hm, limitCacheSize_length_le]

/-- Witness for C4's amended statement at a concrete ok fetch. -/
theorem boundedWrites_amended_witness :
    ((fun _ : String => FetchOutcome.success (Response.mk 200 "live"))
      "https://app.example/api" = .success (Response.mk 200 "live")) ∧
    (Response.mk 200 "live").ok = true ∧
    (networkFirst (Request.mk "GET" "https://app.example/api" "https:"
        "app.example" "/api" none)
      (CacheStore.mk [] fiftyEntries [])
      (fun _ => .success (Response.mk 200 "live"))).2.dynamicCache.length ≤
      MAX_DYNAMIC_CACHE_SIZE := by
  refine ⟨rfl, by decide, ?_⟩
  exact (boundedWrites_amended (Request.mk "GET" "https://app.example/api" "https:"
      "app.example" "/api" none)
    (CacheStore.mk [] fiftyEntries [])
    (fun _ => .success (Response.mk 200 "live")) (Response.mk 200 "live")
    rfl (by decide)).1

end SaladinSW
